import Mathlib

/-!
Verification of the document-compliance assistant core.

This file gives a shallow embedding of the core computations of the
repository (chunker, compliance aggregation, document reconstruction,
re-ingestion, judgment-engine fallback logic, ingestion pipeline control
flow, retrieval-comparison report) and proves or refutes the stated
properties about them.

External collaborators (the PDF extractor, the embedding model, the LLM,
and the vector index) are modelled as abstract inputs: the LLM transport
outcome is an `Except String String`, the JSON parser is an abstract
`String → Option D` function, and the vector store is a list of property
records as returned by its query calls.
-/

namespace CheckListVerif

/-! ### Chunker (services/parser.py, chunk_text)

The Python loop works on raw character offsets.  The loop variable
`start` is an integer that is incremented by `size - overlap_size`
each iteration; the increment can be zero or negative, in which case
the loop never terminates, so the embedding is fuelled: `none` means
the given fuel was exhausted before the loop finished. -/

/-- Normalization of a Python slice endpoint: a negative index counts
from the end of the sequence (clamped below at 0), a nonnegative index
is clamped above at the length. -/
def pyIndex (len : Nat) (i : Int) : Nat :=
  if i < 0 then ((len : Int) + i).toNat else min i.toNat len

/-- Python slice `l[a:b]` on a list of characters. -/
def pySlice (l : List Char) (a b : Int) : List Char :=
  (l.take (pyIndex l.length b)).drop (pyIndex l.length a)

/-- Fuelled body of the `while start < text_length` loop of `chunk_text`:
each iteration appends `text[start:start+size]` and advances `start` by
`step = size - overlap_size` (an integer that may be `≤ 0`). -/
def chunkTextAux (text : List Char) (size : Nat) (step : Int) :
    Nat → Int → Option (List (List Char))
  | 0, _ => none
  | fuel + 1, start =>
    if start < (text.length : Int) then
      match chunkTextAux text size step fuel (start + step) with
      | some rest => some (pySlice text start (start + (size : Int)) :: rest)
      | none => none
    else
      some []

/-- Embedding of `DocumentParser.chunk_text(text, size, overlap)`:
an empty text returns `[]` immediately; otherwise the sliding-window
loop runs with the given fuel. -/
def chunk_text (text : String) (size overlap : Nat) (fuel : Nat) :
    Option (List String) :=
  if text.isEmpty then
    some []
  else
    (chunkTextAux text.toList size ((size : Int) - (overlap : Int)) fuel 0).map
      (fun cs => cs.map (fun c => String.mk c))

/-- The chunker run with fuel `text.length + 1`, which is sufficient
whenever `overlap < size` (proved below). -/
def chunkStr (text : String) (size overlap : Nat) : Option (List String) :=
  chunk_text text size overlap (text.length + 1)

/-- Reference form of the window sequence: the windows taken from
offset `start` on, each of `size` characters (truncated at the end of
the text), advancing by `step` while the start offset is inside the
text. -/
def windowsFrom (text : List Char) (size step : Nat) (start : Nat) :
    List (List Char) :=
  if _h : 0 < step ∧ start < text.length then
    (text.drop start).take size :: windowsFrom text size step (start + step)
  else
    []
termination_by text.length - start
decreasing_by omega

/-- Checks that every window except the last has exactly `size`
characters, the reading of the spec clause "only the final window may be
shorter than `size`". -/
def onlyFinalShorter (l : List String) (size : Nat) : Bool :=
  l.dropLast.all (fun s => s.length == size)

/-! ### Compliance aggregation (routes/checklist.py, run_checklist)

One condition evaluation is a mapping produced by the judgment engine;
`run_checklist` reads its `is_met` key with `e.get("is_met", False)`,
so the key is modelled as optional with default `false`. -/

/-- One condition-evaluation record as consumed by `run_checklist`; every
field is read with `.get`, hence optional. -/
structure CondEvalDict where
  condition_id : Option String
  is_met : Option Bool
  confidence : Option String
  evidence : Option String
  reasoning : Option String
deriving DecidableEq

/-- Embedding of `met_conditions = sum(1 for e in evaluations if
e.get("is_met", False))`. -/
def met_conditions (evaluations : List CondEvalDict) : Nat :=
  evaluations.countP (fun e => e.is_met.getD false)

/-- Embedding of `compliance_percentage = (met_conditions /
total_conditions * 100) if total_conditions > 0 else 100.0`. -/
def compliance_percentage (evaluations : List CondEvalDict) : ℚ :=
  if 0 < evaluations.length then
    (met_conditions evaluations : ℚ) / (evaluations.length : ℚ) * 100
  else
    100

/-- Embedding of `overall_compliance = all(e.get("is_met", False) for e
in evaluations)`. -/
def overall_compliance (evaluations : List CondEvalDict) : Bool :=
  evaluations.all (fun e => e.is_met.getD false)

/-! ### Document store (services/vector_db.py)

The Weaviate index itself is an external service; a stored object is
modelled by the properties the code reads back.  Property lookups in the
code use `.get` with a default, hence the optional fields. -/

/-- The properties of one stored chunk object that the reconstruction
and deletion code reads. -/
structure WObjectProps where
  filename : String
  chunk_index : Option Int
  content : Option String
deriving DecidableEq

/-- Comparison key used by `sorted(response.objects, key=lambda x:
x.properties.get("chunk_index", 0))`. -/
def chunkKey (o : WObjectProps) : Int :=
  o.chunk_index.getD 0

/-- The key comparison underlying the `sorted` call. -/
def chunkLe (a b : WObjectProps) : Bool :=
  decide (chunkKey a ≤ chunkKey b)

/-- Embedding of `get_document_content` applied to the list of objects
the store returned for the filename filter (in whatever order the store
produced them): `None` when no chunks exist, otherwise the contents
sorted by `chunk_index` and joined with a blank-line separator.  Python
`sorted` is stable, hence the merge sort. -/
def get_document_content (objects : List WObjectProps) : Option String :=
  if objects.isEmpty then
    none
  else
    let chunks := objects.mergeSort chunkLe
    some (String.intercalate "\n\n" (chunks.map (fun c => c.content.getD "")))

/-- The canonical chunk objects of a document split into `contents`:
chunk `i` carries `chunk_index = i` and `content = contents[i]`,
exactly the properties `add_document_chunks` writes. -/
def mkChunks (filename : String) (contents : List String) : List WObjectProps :=
  contents.enum.map (fun p => ⟨filename, some (p.1 : Int), some p.2⟩)

/-- Embedding of `delete_by_filename`: `delete_many` with an
equal-filename filter removes exactly the chunks of that file. -/
def delete_by_filename (store : List WObjectProps) (filename : String) :
    List WObjectProps :=
  store.filter (fun o => o.filename ≠ filename)

/-- Embedding of `add_document_chunks`: inserts one object per
`(chunk, embedding)` pair with `chunk_index = i` (enumeration order). -/
def add_document_chunks (store : List WObjectProps) (filename : String)
    (chunks : List String) (embeddings : List (List ℚ)) : List WObjectProps :=
  store ++ (chunks.zip embeddings).enum.map
    (fun p => ⟨filename, some (p.1 : Int), some p.2.1⟩)

/-- Embedding of the storage step of `IngestionPipeline.process_file`
(steps at lines 112 and 116 of pipelines/ingest.py): delete every prior
chunk of the filename, then insert the new chunk set. -/
def ingest_store (store : List WObjectProps) (filename : String)
    (chunks : List String) (embeddings : List (List ℚ)) : List WObjectProps :=
  add_document_chunks (delete_by_filename store filename) filename chunks embeddings

/-! ### Judgment engine (services/claude.py)

The transport (API call plus response-text extraction) either yields the
response text or fails with an error message; `json.loads` is an
abstract parser into an arbitrary type `D` of parsed values, `none`
meaning `JSONDecodeError`.  A `Sum D _` result is the parsed value or
the hand-built fallback mapping. -/

/-- The fallback question-answer record built by `extract_information`. -/
structure QARecord where
  answer : String
  confidence : String
  evidence : String
  explanation : String
deriving DecidableEq

/-- The fallback condition-evaluation record built by
`evaluate_condition`. -/
structure CondRecord where
  is_met : Bool
  confidence : String
  evidence : String
  reasoning : String
  recommendations : String
deriving DecidableEq

/-- Embedding of `ClaudeService.extract_information`: on transport
failure a low-confidence record carrying the error text, on parse
failure the raw response as the answer with confidence `medium`,
otherwise the parsed value. -/
def extract_information {D : Type} (transport : Except String String)
    (jsonParse : String → Option D) : Sum D QARecord :=
  match transport with
  | .error e => .inr ⟨"Error: " ++ e, "low", "", "API call failed"⟩
  | .ok response_text =>
    match jsonParse response_text with
    | some result => .inl result
    | none => .inr ⟨response_text, "medium", "", "Response parsing failed"⟩

/-- Embedding of `ClaudeService.evaluate_condition`: on transport
failure a low-confidence not-met record carrying the error text, on
parse failure the fixed not-met fallback, otherwise the parsed value. -/
def evaluate_condition {D : Type} (transport : Except String String)
    (jsonParse : String → Option D) : Sum D CondRecord :=
  match transport with
  | .error e =>
    .inr ⟨false, "low", "", "API call failed: " ++ e, "Please review manually"⟩
  | .ok response_text =>
    match jsonParse response_text with
    | some result => .inl result
    | none =>
      .inr ⟨false, "low", "", "Response parsing failed", "Please review manually"⟩

/-- Python substring containment `needle in hay` on character lists. -/
def containsSub (needle hay : List Char) : Bool :=
  (List.range (hay.length + 1)).any (fun i => needle.isPrefixOf (hay.drop i))

/-- Whether a response text contains a fenced code block marker. -/
def containsFence (s : String) : Bool :=
  containsSub "```".toList s.toList

/-- A model response whose JSON payload sits inside a fenced code block. -/
def fencedResponse : String :=
  "```json\n\x7b\"is_met\": true\x7d\n```"

/-- The contents of the first fenced block of `fencedResponse`. -/
def fencedInner : String :=
  "json\n\x7b\"is_met\": true\x7d\n"

/-- A parser that succeeds exactly on the fenced-block payload (with or
without the language tag stripped), and fails on the full fenced
response, modelling a JSON text that is valid only once unfenced. -/
def parseOnlyInner : String → Option String :=
  fun s =>
    if s = "\x7b\"is_met\": true\x7d" ∨ s = fencedInner then some s else none

/-! ### Ingestion pipeline control flow (pipelines/ingest.py)

Each external stage of `process_file` is modelled by its outcome: a
Python exception is a `(type-name, message)` pair.  The pipeline also
returns the trace of external calls it issued, so that "nothing embedded
or stored" is expressible. -/

/-- A raised Python exception, as captured by
`f"\x7btype(e).__name__\x7d: \x7bstr(e)\x7d"`. -/
structure PyExn where
  name : String
  msg : String
deriving DecidableEq

/-- One external call issued by the pipeline. -/
inductive IngestEffect
  | upload
  | embedCall (chunks : List String)
  | dbDelete
  | dbAdd (chunks : List String)
deriving DecidableEq

/-- The result mapping `process_file` returns (the fields the claims
are about). -/
structure IngestResult where
  status : String
  error : Option String
  message : Option String
  chunks_count : Option Nat
deriving DecidableEq

/-- The outcomes of the external stages for one file. -/
structure FileStages where
  path : String
  fileExists : Bool
  upload : Except PyExn String
  parse : Except PyExn String
  embed : Except PyExn (List (List ℚ))
  dbDelete : Except PyExn Nat
  dbAdd : Except PyExn (List String)

/-- Python `str.isspace`-style whitespace, the characters stripped by
`str.strip()`. -/
def pyIsSpace (c : Char) : Bool :=
  c = ' ' || c = '\t' || c = '\n' || c = '\x0d' || c = '\x0b' || c = '\x0c'

/-- Whether `text.strip()` is empty, i.e. the text is empty or
whitespace-only. -/
def isBlank (s : String) : Bool :=
  s.toList.all pyIsSpace

/-- The error result `process_file` builds in its outer `except` handler. -/
def mkErrorResult (e : PyExn) : IngestResult :=
  ⟨"error", some (e.name ++ ": " ++ e.msg), none, none⟩

/-- Embedding of `IngestionPipeline.process_file`: existence check,
upload, parse, blank-text check, chunk, embed, delete prior chunks,
insert new chunks; any stage exception is caught by the outer handler
and turned into a status-`error` result. -/
def process_file (f : FileStages) : IngestResult × List IngestEffect :=
  if !f.fileExists then
    (mkErrorResult ⟨"FileNotFoundError", "File not found: " ++ f.path⟩, [])
  else
    match f.upload with
    | .error e => (mkErrorResult e, [])
    | .ok _ =>
      match f.parse with
      | .error e => (mkErrorResult e, [.upload])
      | .ok text =>
        if isBlank text then
          (⟨"warning", none, some "No text content found in PDF", none⟩, [.upload])
        else
          let chunks := (chunkStr text 1000 200).getD []
          match f.embed with
          | .error e => (mkErrorResult e, [.upload, .embedCall chunks])
          | .ok _ =>
            match f.dbDelete with
            | .error e => (mkErrorResult e, [.upload, .embedCall chunks, .dbDelete])
            | .ok _ =>
              match f.dbAdd with
              | .error e =>
                (mkErrorResult e,
                 [.upload, .embedCall chunks, .dbDelete, .dbAdd chunks])
              | .ok _uuids =>
                (⟨"success", none, none, some chunks.length⟩,
                 [.upload, .embedCall chunks, .dbDelete, .dbAdd chunks])

/-- Embedding of `IngestionPipeline.process_batch`: sequential
processing of every file, one result per input. -/
def process_batch (files : List FileStages) :
    List (IngestResult × List IngestEffect) :=
  files.map process_file

/-! ### Retrieval-comparison mode (services/comparison.py) -/

/-- One result of the similarity search against the target document. -/
structure SearchResult where
  content : String
deriving DecidableEq

/-- The parsed compliance judgment; every field is read with `.get`
and a default, hence optional. -/
structure CompDict where
  compliant : Option Bool
  reason : Option String
  confidence : Option ℚ
deriving DecidableEq

/-- One per-item comparison result record. -/
structure ItemResult where
  checklist_item : String
  compliant : Bool
  reason : String
  confidence : ℚ
  relevant_content : Option String
deriving DecidableEq

/-- Embedding of `content[:200] + "..." if len(content) > 200 else
content`. -/
def truncateItem (content : String) : String :=
  if 200 < content.length then content.take 200 ++ "..." else content

/-- Embedding of `_check_item_compliance` given the store reply for the
similarity search, the LLM transport outcome and the abstract JSON
parser: zero search results short-circuit to a non-compliant record,
otherwise one judgment call is parsed with defaults. -/
def check_item_compliance (checklist_content : String)
    (user_results : List SearchResult) (llm : Except String String)
    (jsonParse : String → Option CompDict) : ItemResult :=
  if user_results.isEmpty then
    ⟨truncateItem checklist_content, false,
     "No relevant content found in user document", 0, none⟩
  else
    match llm with
    | .error e =>
      ⟨checklist_content.take 200, false, "Error: " ++ e, 0, none⟩
    | .ok response =>
      match jsonParse response with
      | some result =>
        ⟨truncateItem checklist_content, result.compliant.getD false,
         result.reason.getD "Unable to determine", result.confidence.getD 0,
         some (((user_results.headD ⟨""⟩).content).take 300)⟩
      | none =>
        ⟨truncateItem checklist_content, false,
         "Failed to parse LLM response", 0, none⟩

/-- The summary part of the comparison report. -/
structure ComparisonReport where
  total_items : Nat
  compliant_count : Nat
  non_compliant_count : Nat
  compliance_rate : ℚ
deriving DecidableEq

/-- Embedding of the summary built by `compare_document_with_checklist`
from the per-item results: compliant/non-compliant partition counts and
`compliance_rate = compliant/total if results else 0`. -/
def summarize_comparison (results : List ItemResult) : ComparisonReport :=
  ⟨results.length,
   (results.filter (fun r => r.compliant)).length,
   (results.filter (fun r => !r.compliant)).length,
   if results.isEmpty then 0
   else ((results.filter (fun r => r.compliant)).length : ℚ) / (results.length : ℚ)⟩

/-! ## Theorems -/

/-! ### Chunker lemmas -/

theorem pyIndex_ofNat (len a : Nat) : pyIndex len (a : Int) = min a len := by
  unfold pyIndex
  rw [if_neg (by exact Int.not_lt.mpr (Int.natCast_nonneg a))]
  simp

theorem pySlice_ofNat (l : List Char) (a b : Nat) (ha : a ≤ l.length) :
    pySlice l (a : Int) ((a : Int) + (b : Int)) = (l.drop a).take b := by
  have h2 : (a : Int) + (b : Int) = ((a + b : Nat) : Int) := by push_cast; ring
  rw [pySlice, h2, pyIndex_ofNat, pyIndex_ofNat, Nat.min_eq_left ha, List.take_drop]
  congr 1
  rcases Nat.le_total (a + b) l.length with h | h
  · rw [Nat.min_eq_left h]
  · rw [Nat.min_eq_right h, List.take_length, List.take_of_length_le h]

theorem chunkTextAux_eq_windowsFrom (text : List Char) (size step : Nat)
    (hstep : 0 < step) :
    ∀ fuel start, text.length ≤ start + fuel * step →
      chunkTextAux text size (step : Int) (fuel + 1) (start : Int)
        = some (windowsFrom text size step start) := by
  intro fuel
  induction fuel with
  | zero =>
    intro start h
    rw [chunkTextAux, windowsFrom]
    have hge : text.length ≤ start := by omega
    rw [if_neg (by exact_mod_cast Nat.not_lt.mpr hge),
        dif_neg (by exact fun hc => absurd hc.2 (Nat.not_lt.mpr hge))]
  | succ fuel ih =>
    intro start h
    rw [chunkTextAux, windowsFrom]
    by_cases hlt : start < text.length
    · rw [if_pos (by exact_mod_cast hlt), dif_pos ⟨hstep, hlt⟩]
      have hrec : (start : Int) + (step : Int) = ((start + step : Nat) : Int) := by
        push_cast; ring
      rw [Nat.succ_mul] at h
      rw [hrec, ih (start + step) (by omega)]
      rw [pySlice_ofNat text start size (Nat.le_of_lt hlt)]
    · rw [if_neg (by exact_mod_cast hlt),
          dif_neg (by exact fun hc => absurd hc.2 hlt)]

theorem chunkStr_eq_windows (text : String) (size overlap : Nat)
    (h : overlap < size) :
    chunkStr text size overlap
      = some ((windowsFrom text.toList size (size - overlap) 0).map
          (fun cs => String.mk cs)) := by
  unfold chunkStr chunk_text
  by_cases he : text.isEmpty
  · rw [if_pos he]
    have hlen : text.toList.length = 0 := by
      rw [String.isEmpty_iff] at he
      rw [he]
      rfl
    rw [windowsFrom, dif_neg (by omega)]
    rfl
  · rw [if_neg he]
    have hstep : 0 < size - overlap := by omega
    have hcast : (size : Int) - (overlap : Int) = ((size - overlap : Nat) : Int) := by
      omega
    have hlen : text.toList.length = text.length := rfl
    have hfuel := chunkTextAux_eq_windowsFrom text.toList size (size - overlap)
      hstep text.length 0 (by
        rw [hlen]
        have hmul : text.length * 1 ≤ text.length * (size - overlap) :=
          Nat.mul_le_mul_left _ hstep
        omega)
    rw [hcast]
    rw [show ((0 : Nat) : Int) = (0 : Int) from rfl] at hfuel
    rw [hfuel]
    rfl

theorem windowsFrom_getElem (text : List Char) (size step : Nat) :
    ∀ i start, (windowsFrom text size step start)[i]?
      = if 0 < step ∧ start + i * step < text.length then
          some ((text.drop (start + i * step)).take size)
        else none := by
  intro i
  induction i with
  | zero =>
    intro start
    rw [windowsFrom]
    by_cases hc : 0 < step ∧ start < text.length
    · rw [dif_pos hc, if_pos (by simpa using hc)]
      simp
    · rw [dif_neg hc, if_neg (by simpa using hc)]
      rfl
  | succ i ih =>
    intro start
    rw [windowsFrom]
    by_cases hc : 0 < step ∧ start < text.length
    · rw [dif_pos hc]
      rw [List.getElem?_cons_succ, ih (start + step)]
      have harith : start + step + i * step = start + (i + 1) * step := by ring
      rw [harith]
    · rw [dif_neg hc]
      rw [if_neg ?hcond]
      · rfl
      case hcond =>
        push_neg at hc
        rintro ⟨hstep, hlt⟩
        exact absurd hlt
          (Nat.not_lt.mpr (Nat.le_trans (hc hstep) (Nat.le_add_right _ _)))

theorem windowsFrom_length_iff (text : List Char) (size step : Nat)
    (hstep : 0 < step) :
    ∀ i start, i < (windowsFrom text size step start).length
      ↔ start + i * step < text.length := by
  intro i
  induction i with
  | zero =>
    intro start
    rw [windowsFrom]
    by_cases hc : 0 < step ∧ start < text.length
    · rw [dif_pos hc]
      simpa using hc.2
    · rw [dif_neg hc]
      push_neg at hc
      have hge := hc hstep
      simp
      omega
  | succ i ih =>
    intro start
    rw [windowsFrom]
    by_cases hc : 0 < step ∧ start < text.length
    · rw [dif_pos hc]
      simp only [List.length_cons]
      rw [Nat.succ_lt_succ_iff, ih (start + step)]
      have harith : start + step + i * step = start + (i + 1) * step := by ring
      rw [harith]
    · rw [dif_neg hc]
      push_neg at hc
      have hge := hc hstep
      simp
      exact Nat.le_trans hge (Nat.le_add_right _ _)

/-- Claim C2 (amended): for `overlap < size`, `chunk_text` terminates and
returns the sliding windows where window `i` is the substring of the
text spanning `[i·(size-overlap), i·(size-overlap)+size)` (truncated at
the end of the text), windows exist exactly while their start offset is
below the text length, and window `i` has `min size (len − i·step)`
characters — so the windows shorter than `size` form a suffix that may
contain more than one window; `chunk("", 1000, 200) = []` and
`chunk("ab", 1000, 200) = ["ab"]`. -/
theorem C2_sliding_window_amended (text : String) (size overlap : Nat)
    (h : overlap < size) :
    ∃ l, chunkStr text size overlap = some l ∧
      (∀ i, i < l.length ↔ i * (size - overlap) < text.length) ∧
      (∀ i (hi : i < l.length),
        l.get ⟨i, hi⟩
          = String.mk ((text.toList.drop (i * (size - overlap))).take size)) ∧
      (∀ i (hi : i < l.length),
        (l.get ⟨i, hi⟩).length = min size (text.length - i * (size - overlap))) ∧
      chunkStr "" 1000 200 = some [] ∧
      chunkStr "ab" 1000 200 = some ["ab"] := by
  have hstep : 0 < size - overlap := by omega
  have hlen : text.toList.length = text.length := rfl
  refine ⟨(windowsFrom text.toList size (size - overlap) 0).map
    (fun cs => String.mk cs), chunkStr_eq_windows text size overlap h, ?_, ?_, ?_,
    by decide, by decide⟩
  · intro i
    rw [List.length_map]
    rw [windowsFrom_length_iff text.toList size (size - overlap) hstep i 0]
    rw [Nat.zero_add, hlen]
  · intro i hi
    have h1 : i < (windowsFrom text.toList size (size - overlap) 0).length := by
      simpa using hi
    have h2 := windowsFrom_getElem text.toList size (size - overlap) i 0
    rw [List.getElem?_eq_getElem h1] at h2
    have hcond : 0 < size - overlap ∧
        0 + i * (size - overlap) < text.toList.length := by
      refine ⟨hstep, ?_⟩
      exact (windowsFrom_length_iff text.toList size (size - overlap) hstep i 0).mp h1
    rw [if_pos hcond] at h2
    have h3 : (windowsFrom text.toList size (size - overlap) 0)[i]
        = (text.toList.drop (0 + i * (size - overlap))).take size :=
      Option.some.inj h2
    rw [List.get_eq_getElem, List.getElem_map, h3, Nat.zero_add]
  · intro i hi
    have h1 : i < (windowsFrom text.toList size (size - overlap) 0).length := by
      simpa using hi
    have h2 := windowsFrom_getElem text.toList size (size - overlap) i 0
    rw [List.getElem?_eq_getElem h1] at h2
    have hcond : 0 < size - overlap ∧
        0 + i * (size - overlap) < text.toList.length := by
      refine ⟨hstep, ?_⟩
      have := (windowsFrom_length_iff text.toList size (size - overlap) hstep i 0).mp h1
      omega
    rw [if_pos hcond] at h2
    have h3 : (windowsFrom text.toList size (size - overlap) 0)[i]
        = (text.toList.drop (0 + i * (size - overlap))).take size :=
      Option.some.inj h2
    rw [List.get_eq_getElem, List.getElem_map, h3, Nat.zero_add]
    show ((text.toList.drop (i * (size - overlap))).take size).length = _
    rw [List.length_take, List.length_drop, hlen]

/-- Claim C2, original final clause refuted: for `chunk("abcd", 3, 2)`
the code returns `["abc", "bcd", "cd", "d"]`, in which the window at
index 2 (`"cd"`) is shorter than `size = 3` yet is not the final
window — so it is false that only the final window may be shorter than
`size`. -/
theorem C2_only_final_shorter_counterexample :
    chunkStr "abcd" 3 2 = some ["abc", "bcd", "cd", "d"] ∧
    onlyFinalShorter ["abc", "bcd", "cd", "d"] 3 = false := by
  constructor
  · decide
  · decide

/-- Witness for C2 (amended) at a concrete input. -/
theorem C2_sliding_window_witness :
    chunkStr "ab" 1000 200 = some ["ab"] := by
  obtain ⟨l, -, -, -, -, -, h6⟩ := C2_sliding_window_amended "ab" 1000 200 (by decide)
  exact h6

/-- Claim C9 (code bug): the code performs no `overlap ≥ size`
validation at all; on a nonempty text with `overlap = size` the window
start advances by zero each iteration, so the loop never terminates —
the call neither raises nor returns, for any amount of fuel.  The spec
requires a fail-fast configuration error here. -/
theorem C9_overlap_ge_size_diverges :
    ∀ fuel : Nat, chunk_text "ab" 1 1 fuel = none := by
  have key : ∀ fuel,
      chunkTextAux "ab".toList 1 (((1 : Nat) : Int) - ((1 : Nat) : Int)) fuel 0
        = none := by
    intro fuel
    induction fuel with
    | zero => rfl
    | succ fuel ih =>
      rw [chunkTextAux, if_pos (by decide)]
      have hz : (0 : Int) + (((1 : Nat) : Int) - ((1 : Nat) : Int)) = 0 := by
        norm_num
      rw [hz, ih]
  intro fuel
  unfold chunk_text
  rw [if_neg (by decide), key fuel]
  rfl

/-- Claim C10: with `size > 0` and `overlap < size` the loop start
strictly increases each iteration, so the chunker terminates (fuel
`text.length + 1` always suffices) and is total. -/
theorem C10_chunker_total (text : String) (size overlap : Nat)
    (h1 : 0 < size) (h2 : overlap < size) :
    (chunkStr text size overlap).isSome = true := by
  rw [chunkStr_eq_windows text size overlap h2]
  rfl

/-- Witness for C10 at a concrete input. -/
theorem C10_chunker_total_witness : (chunkStr "abc" 2 1).isSome = true :=
  C10_chunker_total "abc" 2 1 (by decide) (by decide)

/-! ### Compliance aggregation -/

/-- Claim C1: `overall_compliance` is the logical AND of all
evaluations read `is_met` values, `compliance_percentage` equals
`100 × (met_count / total_count)`, and an empty evaluation list yields
`100.0` and `true`. -/
theorem C1_compliance_aggregation (evaluations : List CondEvalDict) :
    (overall_compliance evaluations = true
      ↔ ∀ e ∈ evaluations, e.is_met.getD false = true) ∧
    compliance_percentage evaluations
      = (if evaluations.length = 0 then 100
         else 100 * ((met_conditions evaluations : ℚ) / (evaluations.length : ℚ))) ∧
    (evaluations = [] →
      compliance_percentage evaluations = 100
        ∧ overall_compliance evaluations = true) := by
  refine ⟨?_, ?_, ?_⟩
  · simp [overall_compliance, List.all_eq_true]
  · unfold compliance_percentage
    by_cases h : 0 < evaluations.length
    · rw [if_pos h, if_neg (by omega)]
      ring
    · rw [if_neg h, if_pos (by omega)]
  · rintro rfl
    exact ⟨rfl, rfl⟩

/-- Witness for C1 on the empty evaluation list. -/
theorem C1_compliance_aggregation_witness :
    compliance_percentage [] = 100 ∧ overall_compliance [] = true :=
  (C1_compliance_aggregation []).2.2 rfl

/-! ### Document reconstruction and re-ingestion -/

theorem mkChunks_pairwise (filename : String) (contents : List String) :
    (mkChunks filename contents).Pairwise (fun a b => chunkKey a < chunkKey b) := by
  rw [List.pairwise_iff_getElem]
  intro i j hi hj hij
  simp only [mkChunks, List.enum_eq_enumFrom, List.length_map,
    List.enumFrom_length] at hi hj
  simp only [mkChunks, List.enum_eq_enumFrom, List.getElem_map,
    List.getElem_enumFrom, chunkKey, Option.getD_some]
  push_cast
  omega

theorem perm_pairwise_key_eq {l₁ l₂ : List WObjectProps}
    (hperm : l₁.Perm l₂)
    (h₁ : l₁.Pairwise (fun a b => chunkKey a < chunkKey b))
    (h₂ : l₂.Pairwise (fun a b => chunkKey a < chunkKey b)) : l₁ = l₂ := by
  haveI : IsAntisymm WObjectProps (fun a b => chunkKey a < chunkKey b) :=
    ⟨fun a b hab hba => absurd (lt_trans hab hba) (lt_irrefl _)⟩
  exact List.eq_of_perm_of_sorted hperm h₁ h₂

theorem chunkLe_trans (a b c : WObjectProps) :
    chunkLe a b → chunkLe b c → chunkLe a c := by
  intro hab hbc
  simp only [chunkLe, decide_eq_true_eq] at hab hbc ⊢
  exact le_trans hab hbc

theorem chunkLe_total (a b : WObjectProps) : chunkLe a b || chunkLe b a := by
  simp only [chunkLe, Bool.or_eq_true, decide_eq_true_eq]
  exact le_total _ _

theorem mergeSort_of_perm_mkChunks (filename : String) (contents : List String)
    (objects : List WObjectProps)
    (hperm : objects.Perm (mkChunks filename contents)) :
    objects.mergeSort chunkLe = mkChunks filename contents := by
  have hp1 : (objects.mergeSort chunkLe).Perm (mkChunks filename contents) :=
    (List.mergeSort_perm objects _).trans hperm
  have hs : (objects.mergeSort chunkLe).Pairwise
      (fun a b => chunkKey a ≤ chunkKey b) := by
    have h := List.sorted_mergeSort chunkLe_trans chunkLe_total objects
    exact h.imp (fun hab => by simpa [chunkLe] using hab)
  have hkeysNodup : ((objects.mergeSort chunkLe).map chunkKey).Nodup := by
    have hmk : ((mkChunks filename contents).map chunkKey).Nodup :=
      List.pairwise_map.mpr
        ((mkChunks_pairwise filename contents).imp (fun hab => ne_of_lt hab))
    exact ((hp1.map chunkKey).nodup_iff).mpr hmk
  have hne : (objects.mergeSort chunkLe).Pairwise
      (fun a b => chunkKey a ≠ chunkKey b) :=
    List.pairwise_map.mp hkeysNodup
  exact perm_pairwise_key_eq hp1
    ((hs.and hne).imp (fun hab => lt_of_le_of_ne hab.1 hab.2))
    (mkChunks_pairwise filename contents)

/-- Claim C3: for a filename whose stored chunks are exactly the chunk
objects of `contents` (indices `0..n-1`), in whatever order the store
returns them, `get_document_content` returns the contents sorted by
`chunk_index` and joined with a blank-line separator; for zero chunks it
returns `none`. -/
theorem C3_reconstruct_order (filename : String) (contents : List String)
    (objects : List WObjectProps)
    (hperm : objects.Perm (mkChunks filename contents)) (hne : contents ≠ []) :
    get_document_content objects = some (String.intercalate "\n\n" contents) ∧
    get_document_content [] = none := by
  constructor
  · unfold get_document_content
    have hlen : objects.length = contents.length := by
      rw [hperm.length_eq]
      simp [mkChunks]
    have hOe : objects.isEmpty = false := by
      cases objects with
      | nil =>
        cases contents with
        | nil => exact absurd rfl hne
        | cons c cs => simp at hlen
      | cons o os => rfl
    rw [hOe]
    simp only [Bool.false_eq_true, if_false]
    rw [mergeSort_of_perm_mkChunks filename contents objects hperm]
    congr 1
    unfold mkChunks
    rw [List.map_map]
    have : ((fun c : WObjectProps => c.content.getD "") ∘
        (fun p : Nat × String => (⟨filename, some (p.1 : Int), some p.2⟩ : WObjectProps)))
        = Prod.snd := by
      funext p
      rfl
    rw [this, List.enum_eq_enumFrom, List.enumFrom_map_snd]
  · rfl

/-- Witness for C3: two chunks returned in reversed order reconstruct
in `chunk_index` order. -/
theorem C3_reconstruct_order_witness :
    get_document_content
        [⟨"f.pdf", some 1, some "b"⟩, ⟨"f.pdf", some 0, some "a"⟩]
      = some "a\n\nb" := by
  have h := (C3_reconstruct_order "f.pdf" ["a", "b"]
    [⟨"f.pdf", some 1, some "b"⟩, ⟨"f.pdf", some 0, some "a"⟩]
    (by decide) (by decide)).1
  rw [h]
  rfl

theorem filter_ingest_store (store : List WObjectProps) (filename : String)
    (chunks : List String) (embeddings : List (List ℚ)) :
    (ingest_store store filename chunks embeddings).filter
        (fun o => o.filename = filename)
      = (chunks.zip embeddings).enum.map
          (fun p => ⟨filename, some (p.1 : Int), some p.2.1⟩) := by
  unfold ingest_store add_document_chunks delete_by_filename
  rw [List.filter_append]
  have h1 : (store.filter (fun o => o.filename ≠ filename)).filter
      (fun o => o.filename = filename) = [] := by
    rw [List.filter_filter]
    apply List.filter_eq_nil_iff.mpr
    intro o _
    by_cases h : o.filename = filename <;> simp [h]
  have h2 : ((chunks.zip embeddings).enum.map
      (fun p => (⟨filename, some (p.1 : Int), some p.2.1⟩ : WObjectProps))).filter
      (fun o => o.filename = filename)
      = (chunks.zip embeddings).enum.map
          (fun p => (⟨filename, some (p.1 : Int), some p.2.1⟩ : WObjectProps)) := by
    apply List.filter_eq_self.mpr
    intro o ho
    rw [List.mem_map] at ho
    obtain ⟨p, -, rfl⟩ := ho
    simp
  rw [h1, h2, List.nil_append]

/-- Claim C4: re-ingesting the same chunk set under the same filename
first deletes all prior chunks of that filename, so the second ingestion
leaves exactly the chunk set of a single ingestion — `N` chunks, not
`2N`. -/
theorem C4_reingestion_idempotent (store : List WObjectProps) (filename : String)
    (chunks : List String) (embeddings : List (List ℚ))
    (hlen : embeddings.length = chunks.length) :
    ((ingest_store (ingest_store store filename chunks embeddings)
        filename chunks embeddings).filter (fun o => o.filename = filename))
      = ((ingest_store store filename chunks embeddings).filter
          (fun o => o.filename = filename)) ∧
    ((ingest_store (ingest_store store filename chunks embeddings)
        filename chunks embeddings).filter
          (fun o => o.filename = filename)).length = chunks.length := by
  rw [filter_ingest_store, filter_ingest_store]
  refine ⟨rfl, ?_⟩
  simp [List.length_zip, hlen]

/-- Witness for C4 at a concrete input: ingesting two chunks twice
leaves two chunks. -/
theorem C4_reingestion_idempotent_witness :
    ((ingest_store (ingest_store [] "f" ["a", "b"] [[], []]) "f" ["a", "b"]
      [[], []]).filter (fun o => o.filename = "f")).length = 2 :=
  (C4_reingestion_idempotent [] "f" ["a", "b"] [[], []] rfl).2

/-! ### Judgment engine -/

/-- Claim C5: both judgment functions are total (their codomain has no
failure constructor — every transport and parse outcome maps to a result
record): a successful parse returns the parsed value; an unparseable
response makes the question path return the raw response text as the
answer with confidence `medium` and a parse-failure note, and the
condition path return `is_met = false`, confidence `low`, reasoning
`"Response parsing failed"`; a transport failure degrades both to
confidence `low` records carrying the error text. -/
theorem C5_judgment_total {D : Type} (transport : Except String String)
    (jsonParse : String → Option D) :
    (∀ resp d, transport = .ok resp → jsonParse resp = some d →
      extract_information transport jsonParse = .inl d ∧
      evaluate_condition transport jsonParse = .inl d) ∧
    (∀ resp, transport = .ok resp → jsonParse resp = none →
      extract_information transport jsonParse
        = .inr ⟨resp, "medium", "", "Response parsing failed"⟩ ∧
      evaluate_condition transport jsonParse
        = .inr ⟨false, "low", "", "Response parsing failed",
            "Please review manually"⟩) ∧
    (∀ e, transport = .error e →
      extract_information transport jsonParse
        = .inr ⟨"Error: " ++ e, "low", "", "API call failed"⟩ ∧
      evaluate_condition transport jsonParse
        = .inr ⟨false, "low", "", "API call failed: " ++ e,
            "Please review manually"⟩) := by
  refine ⟨?_, ?_, ?_⟩
  · rintro resp d rfl hp
    simp [extract_information, evaluate_condition, hp]
  · rintro resp rfl hp
    simp [extract_information, evaluate_condition, hp]
  · rintro e rfl
    exact ⟨rfl, rfl⟩

/-- Witness for C5: an unparseable plain-text response degrades as
specified. -/
theorem C5_judgment_total_witness :
    extract_information (Except.ok "plain text") (fun _ => (none : Option Unit))
      = Sum.inr ⟨"plain text", "medium", "", "Response parsing failed"⟩ :=
  ((C5_judgment_total (Except.ok "plain text")
    (fun _ => (none : Option Unit))).2.1 "plain text" rfl rfl).1

/-- Claim C6 refuted: `fencedResponse` contains a fenced code block and
its direct JSON parse fails while the fenced payload parses, yet
`evaluate_condition` returns the degraded parse-failure record — the
code never extracts the fenced block or retries the parse (that logic
exists only in the checklist-generator service, outside the Judgment
Engine). -/
theorem C6_fenced_retry_counterexample :
    containsFence fencedResponse = true ∧
    parseOnlyInner fencedResponse = none ∧
    parseOnlyInner "\x7b\"is_met\": true\x7d" = some "\x7b\"is_met\": true\x7d" ∧
    evaluate_condition (Except.ok fencedResponse) parseOnlyInner
      = Sum.inr ⟨false, "low", "", "Response parsing failed",
          "Please review manually"⟩ := by
  exact ⟨by decide, by decide, by decide, by decide⟩

/-- Claim C6 (amended): when the direct JSON parse of a model response
fails, the Judgment Engine does not attempt any fenced-code-block
extraction or parse retry — even if the response contains a fenced
block, both functions return their degraded fallback records
immediately. -/
theorem C6_no_fenced_retry {D : Type} (resp : String)
    (jsonParse : String → Option D) (hparse : jsonParse resp = none)
    (hfence : containsFence resp = true) :
    extract_information (Except.ok resp) jsonParse
      = Sum.inr ⟨resp, "medium", "", "Response parsing failed"⟩ ∧
    evaluate_condition (Except.ok resp) jsonParse
      = Sum.inr ⟨false, "low", "", "Response parsing failed",
          "Please review manually"⟩ := by
  simp [extract_information, evaluate_condition, hparse]

/-- Witness for C6 (amended) at the fenced response. -/
theorem C6_no_fenced_retry_witness :
    extract_information (Except.ok fencedResponse) parseOnlyInner
      = Sum.inr ⟨fencedResponse, "medium", "", "Response parsing failed"⟩ :=
  (C6_no_fenced_retry fencedResponse parseOnlyInner (by decide) (by decide)).1

/-! ### Ingestion pipeline isolation -/

/-- Claim C7: `process_file` always returns a result (status `success`,
`warning` or `error`, never an escaped exception), any stage exception
yields status `error` with error string `"<TypeName>: <message>"`,
blank extracted text yields a terminal `warning` with no embed call and
no store calls, and `process_batch` sequentially maps every input file
to one result, continuing past failures. -/
theorem C7_pipeline_isolation (f : FileStages) (files : List FileStages) :
    ((process_file f).1.status = "success" ∨ (process_file f).1.status = "warning"
      ∨ (process_file f).1.status = "error") ∧
    (f.fileExists = false →
      (process_file f).1
        = mkErrorResult ⟨"FileNotFoundError", "File not found: " ++ f.path⟩) ∧
    (∀ e, f.fileExists = true → f.upload = .error e →
      (process_file f).1 = mkErrorResult e) ∧
    (∀ u e, f.fileExists = true → f.upload = .ok u → f.parse = .error e →
      (process_file f).1 = mkErrorResult e) ∧
    (∀ u text, f.fileExists = true → f.upload = .ok u → f.parse = .ok text →
      isBlank text = true →
      process_file f
        = (⟨"warning", none, some "No text content found in PDF", none⟩,
           [IngestEffect.upload])) ∧
    (∀ u text e, f.fileExists = true → f.upload = .ok u → f.parse = .ok text →
      isBlank text = false → f.embed = .error e →
      (process_file f).1 = mkErrorResult e) ∧
    (∀ u text emb e, f.fileExists = true → f.upload = .ok u → f.parse = .ok text →
      isBlank text = false → f.embed = .ok emb → f.dbDelete = .error e →
      (process_file f).1 = mkErrorResult e) ∧
    (∀ u text emb n e, f.fileExists = true → f.upload = .ok u → f.parse = .ok text →
      isBlank text = false → f.embed = .ok emb → f.dbDelete = .ok n →
      f.dbAdd = .error e → (process_file f).1 = mkErrorResult e) ∧
    (∀ e, (mkErrorResult e).status = "error"
      ∧ (mkErrorResult e).error = some (e.name ++ ": " ++ e.msg)) ∧
    (process_batch files).length = files.length ∧
    (∀ i (hi2 : i < (process_batch files).length) (hi : i < files.length),
      (process_batch files).get ⟨i, hi2⟩ = process_file (files.get ⟨i, hi⟩)) := by
  refine ⟨?_, ?_, ?_, ?_, ?_, ?_, ?_, ?_, ?_, ?_, ?_⟩
  · cases hfe : f.fileExists with
    | false =>
      right; right
      simp [process_file, hfe, mkErrorResult]
    | true =>
      cases hup : f.upload with
      | error e =>
        right; right
        simp [process_file, hfe, hup, mkErrorResult]
      | ok u =>
        cases hp : f.parse with
        | error e =>
          right; right
          simp [process_file, hfe, hup, hp, mkErrorResult]
        | ok text =>
          cases hb : isBlank text with
          | true =>
            right; left
            simp [process_file, hfe, hup, hp, hb]
          | false =>
            cases hemb : f.embed with
            | error e =>
              right; right
              simp [process_file, hfe, hup, hp, hb, hemb, mkErrorResult]
            | ok emb =>
              cases hdel : f.dbDelete with
              | error e =>
                right; right
                simp [process_file, hfe, hup, hp, hb, hemb, hdel, mkErrorResult]
              | ok n =>
                cases hadd : f.dbAdd with
                | error e =>
                  right; right
                  simp [process_file, hfe, hup, hp, hb, hemb, hdel, hadd,
                    mkErrorResult]
                | ok us =>
                  left
                  simp [process_file, hfe, hup, hp, hb, hemb, hdel, hadd]
  · intro h
    simp [process_file, h]
  · intro e h1 h2
    simp [process_file, h1, h2]
  · intro u e h1 h2 h3
    simp [process_file, h1, h2, h3]
  · intro u text h1 h2 h3 hb
    simp [process_file, h1, h2, h3, hb]
  · intro u text e h1 h2 h3 hb h4
    simp [process_file, h1, h2, h3, hb, h4]
  · intro u text emb e h1 h2 h3 hb h4 h5
    simp [process_file, h1, h2, h3, hb, h4, h5]
  · intro u text emb n e h1 h2 h3 hb h4 h5 h6
    simp [process_file, h1, h2, h3, hb, h4, h5, h6]
  · intro e
    exact ⟨rfl, rfl⟩
  · simp [process_batch]
  · intro i hi2 hi
    simp [process_batch]

/-- Witness for C7: a parse failure on one file is captured as a
status-`error` result with the exception type and message. -/
theorem C7_pipeline_isolation_witness :
    (process_file ⟨"p.pdf", true, Except.ok "u",
        Except.error ⟨"ValueError", "boom"⟩, Except.ok [], Except.ok 0,
        Except.ok []⟩).1
      = mkErrorResult ⟨"ValueError", "boom"⟩ :=
  ((C7_pipeline_isolation ⟨"p.pdf", true, Except.ok "u",
    Except.error ⟨"ValueError", "boom"⟩, Except.ok [], Except.ok 0,
    Except.ok []⟩ []).2.2.2.1) "u" ⟨"ValueError", "boom"⟩ rfl rfl rfl

/-! ### Retrieval-comparison report -/

theorem length_filter_partition (l : List ItemResult) :
    l.length = (l.filter (fun r => r.compliant)).length
      + (l.filter (fun r => !r.compliant)).length := by
  induction l with
  | nil => rfl
  | cons x xs ih =>
    rw [List.filter_cons, List.filter_cons]
    by_cases h : x.compliant
    · rw [if_pos (by simp [h]), if_neg (by simp [h])]
      simp only [List.length_cons, ih]
      omega
    · rw [if_neg (by simp [h]), if_pos (by simp [h])]
      simp only [List.length_cons, ih]
      omega

/-- Claim C8: a checklist item with zero similarity-search results is
reported non-compliant with the no-relevant-content reason and
confidence `0.0`, and the final report satisfies
`total_items = compliant_count + non_compliant_count` and
`compliance_rate = compliant_count / total_items` (`0` when
`total_items = 0`). -/
theorem C8_comparison_report (checklist_content : String)
    (llm : Except String String) (jsonParse : String → Option CompDict)
    (results : List ItemResult) :
    check_item_compliance checklist_content [] llm jsonParse
      = ⟨truncateItem checklist_content, false,
         "No relevant content found in user document", 0, none⟩ ∧
    containsSub "relevant content found".toList
      "No relevant content found in user document".toList = true ∧
    (summarize_comparison results).total_items
      = (summarize_comparison results).compliant_count
        + (summarize_comparison results).non_compliant_count ∧
    (summarize_comparison results).compliance_rate
      = (if (summarize_comparison results).total_items = 0 then 0
         else ((summarize_comparison results).compliant_count : ℚ)
           / ((summarize_comparison results).total_items : ℚ)) := by
  refine ⟨rfl, by decide, ?_, ?_⟩
  · simp only [summarize_comparison]
    exact length_filter_partition results
  · simp only [summarize_comparison]
    by_cases h : results = []
    · subst h
      rfl
    · have h1 : results.isEmpty = false := by
        simpa [List.isEmpty_iff] using h
      have h2 : ¬ results.length = 0 := by
        simpa [List.length_eq_zero] using h
      rw [h1, if_neg h2]
      simp

end CheckListVerif
